import Mathlib

/-!
Verification of the http-index-provider example (provider side of a
content-advertisement ingestion protocol) against its specification.

The development shallowly embeds the two Rust source files
`src/advertisement.rs` and `src/main.rs`.  Machine strings are modelled by
Lean strings together with their UTF-8 byte lists, byte vectors by
`List Nat`, and the external collaborators (the 256-bit digest, the libp2p
signed envelope, the content-addressed block store) are modelled at their
interfaces: the digest is an abstract function argument, the envelope and
the store are concrete executable models of the documented interface.
-/

set_option autoImplicit false

namespace IndexProvider

/-- Byte strings (Rust `Vec<u8>` or `&[u8]`), one `Nat` per byte. -/
abbrev Bytes := List Nat

/-- UTF-8 bytes of a string; models Rust `String::as_bytes`, which merely
exposes the underlying UTF-8 buffer of the string. -/
def strBytes (s : String) : Bytes :=
  s.toUTF8.data.toList.map (fun b => b.toNat)

/-- A content identifier (`forest_cid::Cid`): modelled by its binary
representation, which is what `Cid::to_bytes` returns. -/
structure Cid where
  bytes : Bytes
deriving DecidableEq, Repr

/-- The fragment of `forest_ipld::Ipld` the program manipulates: links,
byte strings, and representative non-link non-byte values for the
ill-formed cases. -/
inductive Ipld where
  | null
  | bool (b : Bool)
  | string (s : String)
  | bytes (b : Bytes)
  | link (c : Cid)
deriving DecidableEq, Repr

/-- `const AD_SIGNATURE_CODEC` in `advertisement.rs`. -/
def AD_SIGNATURE_CODEC : String := "/indexer/ingest/adSignature"

/-- `const AD_SIGNATURE_DOMAIN` in `advertisement.rs`. -/
def AD_SIGNATURE_DOMAIN : String := "indexer"

/-- The `Advertisement` record of `advertisement.rs`. -/
structure Advertisement where
  PreviousID : Option Ipld
  Provider : String
  Addresses : List String
  Signature : Ipld
  Entries : Option Ipld
  ContextID : Ipld
  Metadata : Ipld
  IsRm : Bool
deriving DecidableEq, Repr

/-- Protobuf decoding failure of a signed envelope
(`signed_envelope::DecodingError`), modelled as a single abstract case. -/
inductive DecodingError where
  | malformed
deriving DecidableEq, Repr

/-- `signed_envelope::ReadPayloadError` of libp2p: either the signature does
not verify for the given domain, or the payload type tag differs. -/
inductive ReadPayloadError where
  | invalidSignature
  | unexpectedPayloadType
deriving DecidableEq, Repr

/-- The `AdSigError` enumeration of `advertisement.rs`.  `SigningError`
carries the message of the external signing failure; the interface model of
signing below is total, so this case is never produced. -/
inductive AdSigError where
  | InvalidPreviousID
  | InvalidEntryChunkLink
  | InvalidMetadata
  | MissingSig
  | SigningError (e : String)
  | DecodingError (e : DecodingError)
  | ReadPayloadError (e : ReadPayloadError)
  | PayloadDidNotMatch
deriving DecidableEq, Repr

/-- A signing identity (`libp2p::identity::Keypair`), modelled at its
interface by the public identity it derives. -/
structure Keypair where
  pk : Nat
deriving DecidableEq, Repr

/-- Length-prefixed framing of one field, the injective sub-encoding used by
the envelope model below. -/
def lenPre (l : Bytes) : Bytes := l.length :: l

/-- The domain-separated message a libp2p signed envelope actually signs:
domain string, payload type and payload, each length-prefixed. -/
def signedMessage (domain : String) (payloadType : Bytes) (payload : Bytes) : Bytes :=
  lenPre (strBytes domain) ++ lenPre payloadType ++ lenPre payload

/-- Interface model of producing a signature with a keypair: the signature
binds the public identity to the exact message. -/
def mkSignature (k : Keypair) (msg : Bytes) : Bytes := k.pk :: msg

/-- Interface model of verifying a signature against a public key and a
message. -/
def verifySignature (pk : Nat) (msg : Bytes) (sig : Bytes) : Bool :=
  sig = pk :: msg

/-- `libp2p::core::SignedEnvelope`, modelled at its interface: public key,
payload type tag, payload, and signature over the domain-separated message. -/
structure SignedEnvelope where
  publicKey : Nat
  payloadType : Bytes
  payload : Bytes
  signature : Bytes
deriving DecidableEq, Repr

/-- `SignedEnvelope::new`: sign the domain-separated message and package
everything. -/
def SignedEnvelope.new (k : Keypair) (domain : String) (payloadType : Bytes)
    (payload : Bytes) : SignedEnvelope :=
  { publicKey := k.pk
    payloadType := payloadType
    payload := payload
    signature := mkSignature k (signedMessage domain payloadType payload) }

/-- `SignedEnvelope::into_protobuf_encoding`, modelled by an injective
length-prefixed wire format. -/
def SignedEnvelope.intoProtobufEncoding (e : SignedEnvelope) : Bytes :=
  lenPre [e.publicKey] ++ lenPre e.payloadType ++ lenPre e.payload ++ lenPre e.signature

/-- Read one length-prefixed field off the front of a byte string. -/
def readField (b : Bytes) : Option (Bytes × Bytes) :=
  match b with
  | [] => none
  | n :: rest => if n ≤ rest.length then some (rest.take n, rest.drop n) else none

/-- `SignedEnvelope::from_protobuf_encoding`: parse the four fields back,
failing on anything that is not an exact encoding. -/
def SignedEnvelope.fromProtobufEncoding (b : Bytes) :
    Except DecodingError SignedEnvelope :=
  match readField b with
  | some ([pk], r1) =>
    match readField r1 with
    | some (pt, r2) =>
      match readField r2 with
      | some (pl, r3) =>
        match readField r3 with
        | some (sig, []) =>
          Except.ok { publicKey := pk, payloadType := pt, payload := pl, signature := sig }
        | _ => Except.error DecodingError.malformed
      | _ => Except.error DecodingError.malformed
    | _ => Except.error DecodingError.malformed
  | _ => Except.error DecodingError.malformed

/-- `SignedEnvelope::payload(domain, expected_payload_type)` of libp2p
(named `payloadOf` here because `payload` is taken by the field): check the
payload type tag, then verify the signature for the domain, then return the
payload. -/
def SignedEnvelope.payloadOf (e : SignedEnvelope) (domain : String)
    (expectedPayloadType : Bytes) : Except ReadPayloadError Bytes :=
  if e.payloadType ≠ expectedPayloadType then
    Except.error ReadPayloadError.unexpectedPayloadType
  else if ¬ verifySignature e.publicKey (signedMessage domain e.payloadType e.payload) e.signature then
    Except.error ReadPayloadError.invalidSignature
  else
    Except.ok e.payload

/-- `Advertisement::sig_payload`.  The argument `hash` stands for the fixed
external 256-bit digest step `multihash::Code::Sha2_256.digest(..).to_bytes()`
applied to the assembled byte sequence. -/
def Advertisement.sig_payload (hash : Bytes → Bytes) (ad : Advertisement) :
    Except AdSigError Bytes := do
  let previous_id_bytes : Bytes ←
    match ad.PreviousID with
    | some (Ipld.link l) => Except.ok l.bytes
    | none => Except.ok []
    | some _ => Except.error AdSigError.InvalidPreviousID
  let entrychunk_link_bytes : Bytes ←
    match ad.Entries with
    | some (Ipld.link l) => Except.ok l.bytes
    | none => Except.ok []
    | some _ => Except.error AdSigError.InvalidEntryChunkLink
  let metadata : Bytes ←
    match ad.Metadata with
    | Ipld.bytes b => Except.ok b
    | _ => Except.error AdSigError.InvalidMetadata
  let is_rm_payload : Bytes := if ad.IsRm then [1] else [0]
  let payload : Bytes :=
    previous_id_bytes ++ entrychunk_link_bytes ++ strBytes ad.Provider
      ++ (ad.Addresses.map strBytes).flatten ++ metadata ++ is_rm_payload
  Except.ok (hash payload)

/-- `Advertisement::sign`: build the payload and wrap it in a signed
envelope under the advertisement domain and codec tags. -/
def Advertisement.sign (hash : Bytes → Bytes) (ad : Advertisement) (signing_key : Keypair) :
    Except AdSigError SignedEnvelope := do
  let p ← ad.sig_payload hash
  Except.ok (SignedEnvelope.new signing_key AD_SIGNATURE_DOMAIN (strBytes AD_SIGNATURE_CODEC) p)

/-- `Advertisement::verify_sig`. -/
def Advertisement.verify_sig (hash : Bytes → Bytes) (ad : Advertisement) :
    Except AdSigError Unit := do
  let payload ← ad.sig_payload hash
  let signed_env_bytes : Bytes ←
    match ad.Signature with
    | Ipld.bytes b => Except.ok b
    | _ => Except.error AdSigError.MissingSig
  let signed_env ←
    match SignedEnvelope.fromProtobufEncoding signed_env_bytes with
    | Except.error e => Except.error (AdSigError.DecodingError e)
    | Except.ok env => Except.ok env
  let signed_payload ←
    match signed_env.payloadOf AD_SIGNATURE_DOMAIN (strBytes AD_SIGNATURE_CODEC) with
    | Except.error e => Except.error (AdSigError.ReadPayloadError e)
    | Except.ok p => Except.ok p
  if signed_payload ≠ payload then
    Except.error AdSigError.PayloadDidNotMatch
  else
    Except.ok ()

/-- The `AdvertisementBuilder` of `advertisement.rs`: the advertisement in
progress plus the accumulated head of its entry-chunk chain. -/
structure AdvertisementBuilder where
  ad : Advertisement
  entries_link : Option Ipld
deriving DecidableEq, Repr

/-- The `EntryChunk` record of `advertisement.rs`. -/
structure EntryChunk where
  Entries : List Ipld
  Next : Option Ipld
deriving DecidableEq, Repr

/-- A self-describing stored record: the block store of `main.rs` holds both
serialized advertisements and serialized entry chunks. -/
inductive Block where
  | ad (a : Advertisement)
  | chunk (c : EntryChunk)
deriving DecidableEq, Repr

/-- Interface of the external content-addressed block store
(`ipld_blockstore::BlockStore`): `put` may fail with an I/O error and
otherwise assigns a content identifier. -/
structure BlockStore (σ : Type) where
  put : σ → Block → Except String (σ × Cid)
  get : σ → Cid → Option Block

/-- The `EntryChunkBuilder` implementation for a block store
(`impl<BS: BlockStore> EntryChunkBuilder for BS::link_entries`): build the
chunk with `Next` set to the existing link, store it, return the new link. -/
def BlockStore.link_entries {σ : Type} (bs : BlockStore σ) (st : σ)
    (entries_link : Option Ipld) (entries : List Ipld) :
    Except String (σ × Ipld) := do
  let chunk : EntryChunk := { Entries := entries, Next := entries_link }
  let (st, cid) ← bs.put st (Block.chunk chunk)
  Except.ok (st, Ipld.link cid)

/-- `AdvertisementBuilder::link_entries`.  The Rust code moves the current
link out (`self.entries_link.take()`) before calling the chunk builder, so
on failure the builder is left with no link; the state-passing model returns
the updated builder together with the result. -/
def AdvertisementBuilder.link_entries {σ : Type} (bs : BlockStore σ) (st : σ)
    (b : AdvertisementBuilder) (entries : List Ipld) :
    (AdvertisementBuilder × σ) × Except String Unit :=
  match bs.link_entries st b.entries_link entries with
  | Except.ok (st', link) => (({ b with entries_link := some link }, st'), Except.ok ())
  | Except.error e => (({ b with entries_link := none }, st), Except.error e)

/-- `AdvertisementBuilder::build`: overwrite `Entries` with the accumulated
chain head, sign, store the envelope bytes in `Signature`. -/
def AdvertisementBuilder.build (hash : Bytes → Bytes) (b : AdvertisementBuilder)
    (signing_key : Keypair) : Except AdSigError Advertisement := do
  let ad := { b.ad with Entries := b.entries_link }
  let sig ← ad.sign hash signing_key
  Except.ok { ad with Signature := Ipld.bytes sig.intoProtobufEncoding }

/-- In-memory block store (`forest_db::MemoryDB` with `Blake2b256` content
addressing, modelled at the interface): records are kept in insertion
order and the assigned content identifier encodes the position. -/
abbrev MemStore := List Block

/-- The `BlockStore` operations of the in-memory store: `put` always
succeeds. -/
def memBS : BlockStore MemStore :=
  { put := fun st b => Except.ok (st ++ [b], Cid.mk [st.length])
    get := fun st c =>
      match c.bytes with
      | [i] => st[i]?
      | _ => none }

/-- The `Provider<BS>` state of `main.rs`: chain head, signing keypair,
block store, and the registry of open drafts (`temp_ads`), the latter as an
association list keyed by the draft identifier. -/
structure Provider (σ : Type) where
  head : Option Cid
  keypair : Keypair
  blockstore : σ
  temp_ads : List (Nat × AdvertisementBuilder)
deriving Repr

/-- Look a draft up in the registry (`HashMap::get`). -/
def findDraft (m : List (Nat × AdvertisementBuilder)) (id : Nat) :
    Option AdvertisementBuilder :=
  match m with
  | [] => none
  | (k, b) :: rest => if k = id then some b else findDraft rest id

/-- Drop a draft from the registry (the removal half of `HashMap::remove`;
the registry never holds two entries for one key). -/
def eraseDraft (m : List (Nat × AdvertisementBuilder)) (id : Nat) :
    List (Nat × AdvertisementBuilder) :=
  match m with
  | [] => []
  | (k, b) :: rest => if k = id then eraseDraft rest id else (k, b) :: eraseDraft rest id

/-- Insert a draft (`HashMap::insert`, which replaces any previous binding). -/
def insertDraft (m : List (Nat × AdvertisementBuilder)) (id : Nat)
    (b : AdvertisementBuilder) : List (Nat × AdvertisementBuilder) :=
  (id, b) :: eraseDraft m id

/-- The error side of the tide handlers in `main.rs`, as a closed
enumeration: draft not found (HTTP 404), a signing error from `build`, or a
surfaced store failure (HTTP 500). -/
inductive PublishError where
  | NotFound
  | SigError (e : AdSigError)
  | StoreError (e : String)
deriving DecidableEq, Repr

/-- The `create` handler of `main.rs`: the caller-supplied advertisement
(already deserialized) and the freshly drawn random identifier are inputs;
a builder with no entry chain yet is registered under the identifier. -/
def create {σ : Type} (p : Provider σ) (id : Nat) (ad : Advertisement) :
    Provider σ × Nat :=
  ({ p with temp_ads := insertDraft p.temp_ads id { ad := ad, entries_link := none } }, id)

/-- The `add_chunk` handler of `main.rs`: look the draft up, delegate to
`AdvertisementBuilder::link_entries` against the block store, surface any
store failure. -/
def add_chunk {σ : Type} (bs : BlockStore σ) (p : Provider σ) (id : Nat)
    (entries : List Ipld) : Provider σ × Except PublishError Unit :=
  match findDraft p.temp_ads id with
  | none => (p, Except.error PublishError.NotFound)
  | some b =>
    match AdvertisementBuilder.link_entries bs p.blockstore b entries with
    | ((b', st'), Except.ok ()) =>
      ({ p with blockstore := st', temp_ads := insertDraft p.temp_ads id b' }, Except.ok ())
    | ((b', _), Except.error e) =>
      ({ p with temp_ads := insertDraft p.temp_ads id b' }, Except.error (PublishError.StoreError e))

/-- The `publish_ad` handler of `main.rs`, step for step:
`head.take()` claims the head and leaves it empty, the draft is removed,
`build` signs the advertisement, only then is `PreviousID` overwritten with
the claimed head, the record is stored, and on success the head is set to
the new content identifier.  On every failure path the function returns
with the head still empty, exactly as the Rust code does. -/
def publish_ad {σ : Type} (hash : Bytes → Bytes) (bs : BlockStore σ)
    (p : Provider σ) (id : Nat) : Provider σ × Except PublishError Cid :=
  let current_head := p.head
  let p1 := { p with head := none }
  match findDraft p1.temp_ads id with
  | none => (p1, Except.error PublishError.NotFound)
  | some ad_builder =>
    let p2 := { p1 with temp_ads := eraseDraft p1.temp_ads id }
    match ad_builder.build hash p2.keypair with
    | Except.error e => (p2, Except.error (PublishError.SigError e))
    | Except.ok ad0 =>
      let ad := { ad0 with PreviousID := current_head.map (fun h => Ipld.link h) }
      match bs.put p2.blockstore (Block.ad ad) with
      | Except.error e => (p2, Except.error (PublishError.StoreError e))
      | Except.ok (st, cid) =>
        ({ p2 with blockstore := st, head := some cid }, Except.ok cid)

/-- Modelled from the spec: `src/signed_head.rs` is declared by
`mod signed_head` in `main.rs` but the file is not part of the sources, so
the SignedHead record follows §4.6 of the spec: the head identifier, the
public key of the signer, and a domain-separated signature over the
identifier. -/
structure SignedHead where
  pubkey : Nat
  head : Cid
  sig : Bytes
deriving DecidableEq, Repr

/-- Modelled from the spec: the fixed domain-separation constant of the
signed-head protocol (the spec fixes only that such a constant exists and
differs from other signing contexts by its content). -/
def HEAD_SIGNATURE_DOMAIN : String := "indexer-head"

/-- Modelled from the spec: the domain-separated message certified by a
signed head, built over the head identifier with the protocol domain. -/
def headMessage (h : Cid) : Bytes :=
  lenPre (strBytes HEAD_SIGNATURE_DOMAIN) ++ lenPre h.bytes

/-- Modelled from the spec: `signHead(identity, headIdentifier)` (§4.6),
`SignedHead::new` in the missing `signed_head.rs`. -/
def SignedHead.new (k : Keypair) (h : Cid) : SignedHead :=
  { pubkey := k.pk, head := h, sig := mkSignature k (headMessage h) }

/-- Modelled from the spec: the failure of `SignedHead::open` (§4.6). -/
inductive SignedHeadError where
  | SignatureInvalid
deriving DecidableEq, Repr

/-- Modelled from the spec: `SignedHead::open` (§4.6) verifies the embedded
signature against the embedded public key and identifier and returns the
authenticated pair (named `openHead` because `open` is reserved in Lean). -/
def SignedHead.openHead (sh : SignedHead) : Except SignedHeadError (Nat × Cid) :=
  if verifySignature sh.pubkey (headMessage sh.head) sh.sig then
    Except.ok (sh.pubkey, sh.head)
  else
    Except.error SignedHeadError.SignatureInvalid

/-- The `head` handler of `main.rs`: serve a signed head for the current
chain tip, or fail when no advertisement was published yet. -/
def headHandler {σ : Type} (p : Provider σ) : Except String SignedHead :=
  match p.head with
  | some h => Except.ok (SignedHead.new p.keypair h)
  | none => Except.error "No head"

/-! Spec-side definitions (§4.1, §4.2 of the specification), written from
the words of the spec so that the implementation can be compared against
them. -/

/-- Spec §4.1 step 1 and 2: the content-identifier bytes of an optional
link, empty when the field is absent. -/
def optLinkBytes : Option Ipld → Bytes
  | some (Ipld.link c) => c.bytes
  | _ => []

/-- Spec §4.1 step 5: the raw bytes of a byte-string field. -/
def ipldRawBytes : Ipld → Bytes
  | Ipld.bytes b => b
  | _ => []

/-- Spec §4.1: the concatenation, with no separators or length prefixes, of
previous-link bytes, entries-link bytes, UTF-8 provider bytes, UTF-8 bytes
of each address in order, raw metadata bytes, and a final removal byte. -/
def specSigConcat (ad : Advertisement) : Bytes :=
  optLinkBytes ad.PreviousID ++ optLinkBytes ad.Entries ++ strBytes ad.Provider
    ++ (ad.Addresses.map strBytes).flatten ++ ipldRawBytes ad.Metadata
    ++ [if ad.IsRm then 1 else 0]

/-- A trivial digest instance (the identity on byte strings) used to
exercise the definitions on closed inputs. -/
def idHash : Bytes → Bytes := fun b => b

/-- Advertisement used by the closed instances below: well-formed fields,
no previous link, no entries. -/
def sampleAd : Advertisement :=
  { PreviousID := none
    Provider := "p"
    Addresses := ["a"]
    Signature := Ipld.bytes []
    Entries := none
    ContextID := Ipld.bytes [7]
    Metadata := Ipld.bytes [2]
    IsRm := false }

/-- C4: for every advertisement with well-formed fields (previous and
entries absent or links, metadata a byte string), the signing payload is
exactly the digest of the spec §4.1 concatenation: previous-link bytes,
entries-link bytes, provider bytes, address bytes in order, metadata bytes,
and one removal byte, with no separators or length prefixes. -/
theorem sig_payload_is_digest_of_spec_concat (hash : Bytes → Bytes)
    (ad : Advertisement)
    (hprev : ad.PreviousID = none ∨ ∃ c, ad.PreviousID = some (Ipld.link c))
    (hent : ad.Entries = none ∨ ∃ c, ad.Entries = some (Ipld.link c))
    (hmeta : ∃ b, ad.Metadata = Ipld.bytes b) :
    ad.sig_payload hash = Except.ok (hash (specSigConcat ad)) := by
  obtain ⟨b, hb⟩ := hmeta
  rcases hprev with hp | ⟨cp, hp⟩ <;> rcases hent with he | ⟨ce, he⟩ <;>
    cases hrm : ad.IsRm <;>
    simp [Advertisement.sig_payload, specSigConcat, optLinkBytes, ipldRawBytes, hp, he, hb,
      hrm, bind, Except.bind]

/-- Closed instance of `sig_payload_is_digest_of_spec_concat` at `sampleAd`
with the trivial digest. -/
theorem sig_payload_is_digest_of_spec_concat_witness :
    Advertisement.sig_payload idHash sampleAd = Except.ok (idHash (specSigConcat sampleAd)) :=
  sig_payload_is_digest_of_spec_concat idHash sampleAd (Or.inl rfl) (Or.inl rfl) ⟨[2], rfl⟩

/-- C5: `ContextID` is excluded from the signed payload: two advertisements
whose fields agree except possibly on `ContextID` have the same signing
payload, the same signed envelope under the same identity, and therefore
identical signature bytes. -/
theorem contextID_excluded_from_signature (hash : Bytes → Bytes) (k : Keypair)
    (a b : Advertisement)
    (h1 : a.PreviousID = b.PreviousID) (h2 : a.Provider = b.Provider)
    (h3 : a.Addresses = b.Addresses) (h4 : a.Signature = b.Signature)
    (h5 : a.Entries = b.Entries) (h6 : a.Metadata = b.Metadata)
    (h7 : a.IsRm = b.IsRm) :
    a.sig_payload hash = b.sig_payload hash ∧
    a.sign hash k = b.sign hash k ∧
    (a.sign hash k).map SignedEnvelope.intoProtobufEncoding
      = (b.sign hash k).map SignedEnvelope.intoProtobufEncoding := by
  obtain ⟨ap, aprov, aaddr, asig, aent, actx, ameta, arm⟩ := a
  obtain ⟨bp, bprov, baddr, bsig, bent, bctx, bmeta, brm⟩ := b
  simp only [Advertisement.mk.injEq] at *
  subst h1 h2 h3 h4 h5 h6 h7
  exact ⟨rfl, rfl, rfl⟩

/-- Closed instance of `contextID_excluded_from_signature`: `sampleAd` and
the same advertisement with a different `ContextID` sign identically. -/
theorem contextID_excluded_from_signature_witness :
    Advertisement.sig_payload idHash sampleAd
      = Advertisement.sig_payload idHash { sampleAd with ContextID := Ipld.bytes [8] } ∧
    Advertisement.sign idHash sampleAd (Keypair.mk 3)
      = Advertisement.sign idHash { sampleAd with ContextID := Ipld.bytes [8] } (Keypair.mk 3) ∧
    (Advertisement.sign idHash sampleAd (Keypair.mk 3)).map SignedEnvelope.intoProtobufEncoding
      = (Advertisement.sign idHash { sampleAd with ContextID := Ipld.bytes [8] }
          (Keypair.mk 3)).map SignedEnvelope.intoProtobufEncoding :=
  contextID_excluded_from_signature idHash (Keypair.mk 3) sampleAd
    { sampleAd with ContextID := Ipld.bytes [8] } rfl rfl rfl rfl rfl rfl rfl

/-- Whether an optional field is absent or a content-identifier link
(the well-formedness condition of spec §4.1). -/
def isOptLink : Option Ipld → Bool
  | none => true
  | some (Ipld.link _) => true
  | some _ => false

/-- Spec §4.2: the verification outcome as the spec enumerates it —
`InvalidPreviousLink` / `InvalidEntriesLink` when the field is present but
not a link, `InvalidMetadata` when the metadata is not a byte string,
`MissingSignature` when the advertisement carries no signature bytes,
`DecodingError` when the envelope bytes are malformed, `ReadPayloadError`
when the domain or payload-type tags do not check out, `SignatureMismatch`
when the recomputed §4.1 payload differs from the envelope payload, and
success otherwise. -/
def specVerify (hash : Bytes → Bytes) (ad : Advertisement) : Except AdSigError Unit :=
  if isOptLink ad.PreviousID = false then Except.error AdSigError.InvalidPreviousID
  else if isOptLink ad.Entries = false then Except.error AdSigError.InvalidEntryChunkLink
  else
    match ad.Metadata with
    | Ipld.bytes _ =>
      (match ad.Signature with
       | Ipld.bytes sb =>
         (match SignedEnvelope.fromProtobufEncoding sb with
          | Except.error e => Except.error (AdSigError.DecodingError e)
          | Except.ok env =>
            match env.payloadOf AD_SIGNATURE_DOMAIN (strBytes AD_SIGNATURE_CODEC) with
            | Except.error e => Except.error (AdSigError.ReadPayloadError e)
            | Except.ok sp =>
              if sp ≠ hash (specSigConcat ad) then Except.error AdSigError.PayloadDidNotMatch
              else Except.ok ())
       | _ => Except.error AdSigError.MissingSig)
    | _ => Except.error AdSigError.InvalidMetadata

/-- Case analysis of `sig_payload` over all field shapes: well-formed fields
give the digest of the §4.1 concatenation, ill-formed fields give the
corresponding error in the order the implementation checks them. -/
lemma sig_payload_cases (hash : Bytes → Bytes) (ad : Advertisement) :
    ad.sig_payload hash =
      (if isOptLink ad.PreviousID = false then Except.error AdSigError.InvalidPreviousID
       else if isOptLink ad.Entries = false then Except.error AdSigError.InvalidEntryChunkLink
       else
         match ad.Metadata with
         | Ipld.bytes _ => Except.ok (hash (specSigConcat ad))
         | _ => Except.error AdSigError.InvalidMetadata) := by
  rcases hprev : ad.PreviousID with _ | (_ | b1 | s1 | bb1 | c1) <;>
    rcases hent : ad.Entries with _ | (_ | b2 | s2 | bb2 | c2) <;>
    rcases hmeta : ad.Metadata with _ | b3 | s3 | bb3 | c3 <;>
    cases hrm : ad.IsRm <;>
    simp [Advertisement.sig_payload, isOptLink, specSigConcat, optLinkBytes, ipldRawBytes,
      hprev, hent, hmeta, hrm, bind, Except.bind]

/-- C7: `verify_sig` agrees everywhere with the spec §4.2 verification
outcome `specVerify`: each failure condition yields exactly the specified
error and verification succeeds otherwise. -/
theorem verify_sig_matches_spec_errors (hash : Bytes → Bytes) (ad : Advertisement) :
    ad.verify_sig hash = specVerify hash ad := by
  by_cases h1 : isOptLink ad.PreviousID = false
  · simp [Advertisement.verify_sig, specVerify, sig_payload_cases, h1, bind, Except.bind]
  · by_cases h2 : isOptLink ad.Entries = false
    · simp [Advertisement.verify_sig, specVerify, sig_payload_cases, h1, h2, bind, Except.bind]
    · cases hm : ad.Metadata <;>
        simp [Advertisement.verify_sig, specVerify, sig_payload_cases, h1, h2, hm,
          bind, Except.bind]

/-- A draft erased from the registry can no longer be found. -/
lemma findDraft_eraseDraft (m : List (Nat × AdvertisementBuilder)) (id : Nat) :
    findDraft (eraseDraft m id) id = none := by
  induction m with
  | nil => rfl
  | cons kv rest ih =>
    obtain ⟨k, b⟩ := kv
    by_cases hk : k = id <;> simp [eraseDraft, findDraft, hk, ih]

/-- C6: appending entry chunks builds a LIFO chain: starting from a draft
with no chunks, appending `e1` and then `e2` stores two chunks, updates the
accumulated head after each append to the freshly assigned link, and
traversal from the final head meets the `e2` chunk first, whose `Next`
points at the `e1` chunk, whose `Next` is absent. -/
theorem entry_chunk_chain_lifo (st : MemStore) (b : AdvertisementBuilder)
    (e1 e2 : List Ipld) (h : b.entries_link = none) :
    ∃ (c1 c2 : Cid) (b1 b2 : AdvertisementBuilder) (st1 st2 : MemStore),
      AdvertisementBuilder.link_entries memBS st b e1 = ((b1, st1), Except.ok ()) ∧
      b1.entries_link = some (Ipld.link c1) ∧
      AdvertisementBuilder.link_entries memBS st1 b1 e2 = ((b2, st2), Except.ok ()) ∧
      b2.entries_link = some (Ipld.link c2) ∧
      memBS.get st2 c2 = some (Block.chunk { Entries := e2, Next := some (Ipld.link c1) }) ∧
      memBS.get st2 c1 = some (Block.chunk { Entries := e1, Next := none }) := by
  obtain ⟨ad0, el⟩ := b
  simp only at h
  subst h
  refine ⟨Cid.mk [st.length], Cid.mk [st.length + 1],
    { ad := ad0, entries_link := some (Ipld.link (Cid.mk [st.length])) },
    { ad := ad0, entries_link := some (Ipld.link (Cid.mk [st.length + 1])) },
    st ++ [Block.chunk { Entries := e1, Next := none }],
    (st ++ [Block.chunk { Entries := e1, Next := none }])
      ++ [Block.chunk { Entries := e2, Next := some (Ipld.link (Cid.mk [st.length])) }],
    ?_, rfl, ?_, rfl, ?_, ?_⟩
  · simp [AdvertisementBuilder.link_entries, BlockStore.link_entries, memBS, bind, Except.bind]
  · simp [AdvertisementBuilder.link_entries, BlockStore.link_entries, memBS, bind, Except.bind]
  · show ((st ++ [Block.chunk { Entries := e1, Next := none }])
      ++ [Block.chunk { Entries := e2, Next := some (Ipld.link (Cid.mk [st.length])) }])[st.length + 1]?
      = some (Block.chunk { Entries := e2, Next := some (Ipld.link (Cid.mk [st.length])) })
    have hl : st.length + 1 = (st ++ [Block.chunk { Entries := e1, Next := none }]).length := by
      simp
    rw [hl, List.getElem?_concat_length]
  · show ((st ++ [Block.chunk { Entries := e1, Next := none }])
      ++ [Block.chunk { Entries := e2, Next := some (Ipld.link (Cid.mk [st.length])) }])[st.length]?
      = some (Block.chunk { Entries := e1, Next := none })
    rw [List.getElem?_append_left (by simp), List.getElem?_concat_length]

/-- Closed instance of `entry_chunk_chain_lifo` on the empty store. -/
theorem entry_chunk_chain_lifo_witness :
    ∃ (c1 c2 : Cid) (b1 b2 : AdvertisementBuilder) (st1 st2 : MemStore),
      AdvertisementBuilder.link_entries memBS []
          { ad := sampleAd, entries_link := none } [Ipld.bytes [10], Ipld.bytes [11]]
        = ((b1, st1), Except.ok ()) ∧
      b1.entries_link = some (Ipld.link c1) ∧
      AdvertisementBuilder.link_entries memBS st1 b1 [Ipld.bytes [12], Ipld.bytes [13]]
        = ((b2, st2), Except.ok ()) ∧
      b2.entries_link = some (Ipld.link c2) ∧
      memBS.get st2 c2
        = some (Block.chunk { Entries := [Ipld.bytes [12], Ipld.bytes [13]],
                              Next := some (Ipld.link c1) }) ∧
      memBS.get st2 c1
        = some (Block.chunk { Entries := [Ipld.bytes [10], Ipld.bytes [11]], Next := none }) :=
  entry_chunk_chain_lifo [] { ad := sampleAd, entries_link := none }
    [Ipld.bytes [10], Ipld.bytes [11]] [Ipld.bytes [12], Ipld.bytes [13]] rfl

/-- C8: a successful publish removes the draft from the registry, and both a
second publish and an append with the same identifier on the resulting state
fail with the not-found error. -/
theorem publish_consumes_draft_once {σ : Type} (hash : Bytes → Bytes)
    (bs : BlockStore σ) (p : Provider σ) (id : Nat) (p' : Provider σ) (cid : Cid)
    (entries : List Ipld)
    (h : publish_ad hash bs p id = (p', Except.ok cid)) :
    findDraft p'.temp_ads id = none ∧
    (publish_ad hash bs p' id).2 = Except.error PublishError.NotFound ∧
    (add_chunk bs p' id entries).2 = Except.error PublishError.NotFound := by
  unfold publish_ad at h
  rcases hf : findDraft p.temp_ads id with _ | b
  · simp [hf] at h
  · simp only [hf] at h
    rcases hb : AdvertisementBuilder.build hash b p.keypair with e | ad0
    · simp [hb] at h
    · simp only [hb] at h
      rcases hput : bs.put p.blockstore
          (Block.ad { ad0 with
            PreviousID := p.head.map (fun hd => Ipld.link hd) }) with e | ⟨st, cid'⟩
      · simp [hput] at h
      · simp only [hput] at h
        obtain ⟨hp', _⟩ := Prod.mk.injEq .. ▸ h
        have htemp : p'.temp_ads = eraseDraft p.temp_ads id := by
          rw [← hp']
        have hnone : findDraft p'.temp_ads id = none := by
          rw [htemp]; exact findDraft_eraseDraft p.temp_ads id
        refine ⟨hnone, ?_, ?_⟩
        · simp [publish_ad, hnone]
        · simp [add_chunk, hnone]

/-- The provider state used by the closed publish instances: no head yet,
one open draft under identifier 5. -/
def sampleProvider : Provider MemStore :=
  { head := none
    keypair := Keypair.mk 3
    blockstore := []
    temp_ads := [(5, { ad := sampleAd, entries_link := none })] }

/-- Closed instance of `publish_consumes_draft_once`: publishing draft 5 of
`sampleProvider` succeeds, after which the draft is gone and publish and
append both fail with not-found. -/
theorem publish_consumes_draft_once_witness :
    findDraft (publish_ad idHash memBS sampleProvider 5).1.temp_ads 5 = none ∧
    (publish_ad idHash memBS (publish_ad idHash memBS sampleProvider 5).1 5).2
      = Except.error PublishError.NotFound ∧
    (add_chunk memBS (publish_ad idHash memBS sampleProvider 5).1 5 []).2
      = Except.error PublishError.NotFound :=
  publish_consumes_draft_once idHash memBS sampleProvider 5
    (publish_ad idHash memBS sampleProvider 5).1 (Cid.mk [0]) [] rfl

/-- C9: the signed-head protocol round-trips — opening a head signed by an
identity returns exactly that public identity and head — and opening any
signed head whose embedded signature does not verify against the embedded
public key and identifier fails with the invalid-signature error. -/
theorem signed_head_roundtrip :
    (∀ (k : Keypair) (h : Cid), (SignedHead.new k h).openHead = Except.ok (k.pk, h)) ∧
    (∀ sh : SignedHead,
      verifySignature sh.pubkey (headMessage sh.head) sh.sig = false →
      sh.openHead = Except.error SignedHeadError.SignatureInvalid) := by
  constructor
  · intro k h
    simp [SignedHead.new, SignedHead.openHead, verifySignature, mkSignature]
  · intro sh hv
    simp [SignedHead.openHead, hv]

/-- Closed instance of `signed_head_roundtrip`: a concrete round-trip, and a
concrete signed head with an empty (hence invalid) signature is rejected. -/
theorem signed_head_roundtrip_witness :
    (SignedHead.new (Keypair.mk 3) (Cid.mk [1])).openHead = Except.ok (3, Cid.mk [1]) ∧
    SignedHead.openHead { pubkey := 3, head := Cid.mk [1], sig := [] }
      = Except.error SignedHeadError.SignatureInvalid :=
  ⟨signed_head_roundtrip.1 (Keypair.mk 3) (Cid.mk [1]),
   signed_head_roundtrip.2 { pubkey := 3, head := Cid.mk [1], sig := [] } (by decide)⟩

/-- C10: sealing a draft overwrites the `Entries` field with the
accumulated entry-chain head, discarding whatever the caller supplied at
draft creation; and a freshly created draft carries no entry chain, so with
no appended chunk it seals into an advertisement with `Entries` absent. -/
theorem build_overwrites_entries :
    (∀ (hash : Bytes → Bytes) (k : Keypair) (b : AdvertisementBuilder) (ad' : Advertisement),
        b.build hash k = Except.ok ad' → ad'.Entries = b.entries_link) ∧
    (∀ (σ : Type) (p : Provider σ) (id : Nat) (ad : Advertisement),
        findDraft ((create p id ad).1.temp_ads) id
          = some { ad := ad, entries_link := none }) := by
  constructor
  · intro hash k b ad' h
    unfold AdvertisementBuilder.build at h
    rcases hs : Advertisement.sign hash { b.ad with Entries := b.entries_link } k with e | env
    · simp [hs, bind, Except.bind] at h
    · simp only [hs, bind, Except.bind, Except.ok.injEq] at h
      rw [← h]
  · intro σ p id ad
    simp [create, insertDraft, findDraft]

/-- A draft whose advertisement carries a caller-supplied `Entries` link. -/
def draftWithCallerEntries : AdvertisementBuilder :=
  { ad := { sampleAd with Entries := some (Ipld.link (Cid.mk [4])) }
    entries_link := none }

/-- The advertisement sealed from `draftWithCallerEntries` (the fallback arm
is never taken: building this draft succeeds). -/
def builtFromDraft : Advertisement :=
  match draftWithCallerEntries.build idHash (Keypair.mk 3) with
  | Except.ok a => a
  | Except.error _ => sampleAd

/-- Closed instance of `build_overwrites_entries`: the sealed advertisement
has `Entries` absent although the caller supplied a link at creation, and a
created draft is registered with no entry chain. -/
theorem build_overwrites_entries_witness :
    builtFromDraft.Entries = none ∧
    findDraft ((create sampleProvider 9 sampleAd).1.temp_ads) 9
      = some { ad := sampleAd, entries_link := none } :=
  ⟨build_overwrites_entries.1 idHash (Keypair.mk 3) draftWithCallerEntries builtFromDraft rfl,
   build_overwrites_entries.2 MemStore sampleProvider 9 sampleAd⟩

/-! The remaining three claims concern `publish_ad` in `main.rs`.  The code
claims the head with `head.take()` and signs the advertisement (inside
`build`) before overwriting `PreviousID` with the claimed head, and no
failure path restores the taken head; the following closed theorems
evaluate the embedded handler on concrete states exhibiting this. -/

/-- Provider with an existing chain head and one well-formed open draft. -/
def stalePrevProvider : Provider MemStore :=
  { head := some (Cid.mk [9])
    keypair := Keypair.mk 3
    blockstore := []
    temp_ads := [(1, { ad := sampleAd, entries_link := none })] }

/-- C1 is violated by the code: publishing draft 1 over the existing head
succeeds and stores an advertisement whose `PreviousID` is the claimed
head, yet the stored signature does not verify — `publish_ad` signs inside
`build` first and only afterwards overwrites `PreviousID`, so the payload
recomputed by `verify_sig` differs from the signed one. -/
theorem publish_signs_before_previous_bug :
    (publish_ad idHash memBS stalePrevProvider 1).2 = Except.ok (Cid.mk [0]) ∧
    (match memBS.get (publish_ad idHash memBS stalePrevProvider 1).1.blockstore (Cid.mk [0]) with
     | some (Block.ad a) => some a.PreviousID
     | _ => none) = some (some (Ipld.link (Cid.mk [9]))) ∧
    (match memBS.get (publish_ad idHash memBS stalePrevProvider 1).1.blockstore (Cid.mk [0]) with
     | some (Block.ad a) => some (a.verify_sig idHash)
     | _ => none) = some (Except.error AdSigError.PayloadDidNotMatch) :=
  ⟨rfl, rfl, rfl⟩

/-- Provider with an existing head and an empty draft registry. -/
def lostHeadProvider : Provider MemStore :=
  { head := some (Cid.mk [9])
    keypair := Keypair.mk 3
    blockstore := []
    temp_ads := [] }

/-- A block store whose writes always fail with an I/O error. -/
def failBS : BlockStore Unit :=
  { put := fun _ _ => Except.error "io error"
    get := fun _ _ => none }

/-- Provider over the failing store, with an existing head and one draft. -/
def lostHeadProviderFailingStore : Provider Unit :=
  { head := some (Cid.mk [9])
    keypair := Keypair.mk 3
    blockstore := ()
    temp_ads := [(1, { ad := sampleAd, entries_link := none })] }

/-- C2 is violated by the code: on both error paths — unknown draft
identifier, and block-store write failure — `publish_ad` surfaces the error
but leaves the head empty instead of restoring the pre-claim value, because
`head.take()` is never undone. -/
theorem publish_failure_loses_head_bug :
    ((publish_ad idHash memBS lostHeadProvider 1).2 = Except.error PublishError.NotFound ∧
     lostHeadProvider.head = some (Cid.mk [9]) ∧
     (publish_ad idHash memBS lostHeadProvider 1).1.head = none) ∧
    ((publish_ad idHash failBS lostHeadProviderFailingStore 1).2
        = Except.error (PublishError.StoreError "io error") ∧
     lostHeadProviderFailingStore.head = some (Cid.mk [9]) ∧
     (publish_ad idHash failBS lostHeadProviderFailingStore 1).1.head = none) :=
  ⟨⟨rfl, rfl, rfl⟩, ⟨rfl, rfl, rfl⟩⟩

/-- Provider with a set head used to exhibit the head moving backwards. -/
def forwardProvider : Provider MemStore :=
  { head := some (Cid.mk [7])
    keypair := Keypair.mk 4
    blockstore := []
    temp_ads := [] }

/-- C3 is violated by the code: a failed publish is an operation other than
a successful publish that changes the head — it resets an already-set head
back to absent via the unreverted `head.take()`. -/
theorem failed_publish_resets_head_bug :
    forwardProvider.head = some (Cid.mk [7]) ∧
    (publish_ad idHash memBS forwardProvider 2).2 = Except.error PublishError.NotFound ∧
    (publish_ad idHash memBS forwardProvider 2).1.head = none :=
  ⟨rfl, rfl, rfl⟩

end IndexProvider
